import Mathlib

/-
Verification development for the shurcooL/graphql GraphQL client library.

The development shallowly embeds the two engines of the library:
the query synthesizer of query.go (variable-type printer, selection
synthesizer and operation assembler) and the response binder of the
internal jsonutil package, together with the post-decode logic of the
client in graphql.go.  Machine strings are Lean String values and all
string helpers are written over the underlying character lists so that
every definition evaluates inside the kernel.

Recursive walks that in Go recurse over reflect values are written with
an explicit fuel parameter (a Nat that decreases at every nested call)
so that every function is structurally recursive and computable; fuel
exhaustion surfaces as an error value that no theorem ever treats as a
successful run.
-/

namespace Graphql

/-! ## String primitives over character lists -/

/-- Lowercases one ASCII character, used to model strings.EqualFold and
identifier lowering. -/
def lowerChar (c : Char) : Char :=
  if 'A' ≤ c ∧ c ≤ 'Z' then Char.ofNat (c.toNat + 32) else c

/-- Lowercases a whole string character by character. -/
def strLower (s : String) : String := ⟨s.data.map lowerChar⟩

/-- Case-insensitive string comparison, modelling strings.EqualFold on
ASCII identifiers. -/
def eqFold (a b : String) : Bool := strLower a == strLower b

/-- Boolean test that the first character list begins with the second. -/
def charsBegin : List Char → List Char → Bool
  | _, [] => true
  | [], _ :: _ => false
  | c :: cs, d :: ds => c == d && charsBegin cs ds

/-- Boolean test that string s begins with string p. -/
def strBegins (s p : String) : Bool := charsBegin s.data p.data

/-- Keeps the part of s strictly before the first occurrence of the
character stop, the whole of s when stop does not occur. -/
def strTakeUntil (stop : Char) (s : String) : String :=
  ⟨s.data.takeWhile (fun c => c ≠ stop)⟩

/-- Removes leading and trailing space characters. -/
def trimSpaces (s : String) : String :=
  ⟨((s.data.dropWhile (· = ' ')).reverse.dropWhile (· = ' ')).reverse⟩

/-! ## A kernel-computable lexicographic order on strings

sort.Strings of the Go standard library sorts byte-wise; the model
compares scalar-value sequences, which agrees with it on ASCII keys. -/

/-- Lexicographic less-or-equal on code sequences. -/
def lexLe : List Nat → List Nat → Bool
  | [], _ => true
  | _ :: _, [] => false
  | x :: xs, y :: ys => x < y || (x == y && lexLe xs ys)

/-- Code sequence of a string. -/
def charCodes (s : String) : List Nat := s.data.map Char.toNat

/-- Order on variable keys used to model sort.Strings. -/
def keyLe (a b : String) : Prop := lexLe (charCodes a) (charCodes b) = true

instance : DecidableRel keyLe := fun a b => by unfold keyLe; infer_instance

/-! ## Variable-type printer (writeArgumentType of src/query.go)

RType models the aspects of reflect.Type that writeArgumentType reads:
the kind (pointer, slice, array or other) and the declared name, where
an anonymous composite type has the empty name. -/

/-- Reflected host type of a variable value. -/
inductive RType where
  | ptr (t : RType)
  | slice (t : RType)
  | array (n : Nat) (t : RType)
  | named (name : String)
  | anon
deriving DecidableEq

/-- Prints a minified GraphQL type for t, following writeArgumentType of
src/query.go: a pointer recurses on its element with value set to false,
a slice or array prints a bracketed required element type, any other
kind prints the declared name with string re-spelled ID, and a trailing
bang is appended exactly when value is true. -/
def writeArgumentType : RType → Bool → String
  | .ptr t, _ => writeArgumentType t false
  | .slice t, value => "[" ++ writeArgumentType t true ++ "]" ++ (if value then "!" else "")
  | .array _ t, value => "[" ++ writeArgumentType t true ++ "]" ++ (if value then "!" else "")
  | .named name, value =>
      (if name = "string" then "ID" else name) ++ (if value then "!" else "")
  | .anon, value => "" ++ (if value then "!" else "")

/-! ## Variables map and operation assembly (src/query.go, src/graphql.go) -/

/-- One entry of the variables map: the key, the reflected type of the
value, and the JSON encoding of the value used by the request body. -/
structure VarEntry where
  key : String
  rtyp : RType
  enc : String
deriving DecidableEq

/-- A Go map is nil or holds a list of entries in iteration order;
iteration order is arbitrary, which the theorems quantify over. -/
def GoMap : Type := Option (List VarEntry)

/-- Entries of the map, empty for a nil map. -/
def mapEntries (m : GoMap) : List VarEntry :=
  match m with
  | none => []
  | some l => l

/-- Number of entries, modelling len of a Go map. -/
def mapLen (m : GoMap) : Nat := (mapEntries m).length

/-- Map indexing, modelling variables[k]. -/
def lookupVar (k : String) : List VarEntry → Option VarEntry
  | [] => none
  | e :: es => if e.key = k then some e else lookupVar k es

/-- Builds the minified arguments string for the variables, following
queryArguments of src/query.go: the keys are collected, sorted, and each
contributes a dollar, the key, a colon and the printed type of its
value, with no separators. -/
def queryArguments (vars : List VarEntry) : String :=
  String.join (((vars.map VarEntry.key).insertionSort keyLe).map fun k =>
    "$" ++ k ++ ":" ++
      (match lookupVar k vars with
       | some e => writeArgumentType e.rtyp true
       | none => ""))


/-- Modelled from the spec: JSON string encoding of the Go standard
library, restricted to quote and backslash escaping; the envelope
serializer of src/graphql.go delegates to encoding/json, which is not
part of the repository. -/
def jsonString (s : String) : String :=
  "\"" ++ ⟨s.data.flatMap (fun c =>
    if c = '"' ∨ c = '\\' then ['\\', c] else [c])⟩ ++ "\""

/-- Modelled from the spec: the JSON object for the variables map as
encoding/json emits it, keys sorted, each value spliced from its stored
encoding. -/
def encodeVariables (vars : List VarEntry) : String :=
  let keys := (vars.map VarEntry.key).insertionSort keyLe
  "\x7b" ++ String.join ((keys.map fun k =>
    jsonString k ++ ":" ++
      (match lookupVar k vars with
       | some e => e.enc
       | none => "null")).intersperse ",") ++ "\x7d"

/-- Modelled from the spec: the serialized request body of src/graphql.go,
a JSON object with the query string and, through the omitempty option of
encoding/json, the variables key exactly when the map has entries; the
encoder terminates the stream with a newline. -/
def requestBody (query : String) (vars : GoMap) : String :=
  "\x7b\"query\":" ++ jsonString query ++
    (if mapLen vars > 0 then ",\"variables\":" ++ encodeVariables (mapEntries vars)
     else "") ++ "\x7d\n"

/-! ## Selection synthesizer (writeQuery of src/query.go)

QType models the aspects of reflect.Type read by writeQuery: the kind,
struct fields with their tags, whether the pointer type implements
json.Unmarshaler, and fixed-size array lengths.  QVal models the
reflect.Value walked alongside, including interface boxes that carry a
dynamic type, as the ordered-map extension of writeQuery unboxes
them. -/

/-- Field of a struct type as the selection synthesizer sees it. -/
structure QField (τ : Type) where
  name : String
  tag : Option String
  anonymous : Bool
  typ : τ

/-- Reflected destination type for selection synthesis. -/
inductive QType where
  | ptrQ (t : QType)
  | sliceQ (t : QType)
  | arrayQ (n : Nat) (t : QType)
  | structQ (unmarshaler : Bool) (fields : List (QField QType))
  | mapQ (k v : QType)
  | ifaceQ
  | namedQ (name : String)

/-- Reflected value walked alongside the type; vInvalid models the zero
reflect.Value produced by the Safe helpers of src/query.go. -/
inductive QVal where
  | vInvalid
  | vPtr (e : Option QVal)
  | vList (elems : List QVal)
  | vStruct (fields : List QVal)
  | vString (s : String)
  | vBox (t : QType) (v : QVal)
  | vOpaque

/-- Modelled from the spec: the identifier-case primitive of the ident
package (out of scope per the specification, treated as a primitive).
The model lowercases the leading character, which agrees with the
primitive on every identifier that appears in this development. -/
def toLowerCamelCase (s : String) : String :=
  match s.data with
  | [] => ""
  | c :: cs => ⟨lowerChar c :: cs⟩

/-- Short printed form of a type for error text, standing in for the
percent-v formatting of fmt.Errorf. -/
def typeRepr : QType → String
  | .ptrQ t => "*" ++ typeRepr t
  | .sliceQ t => "[]" ++ typeRepr t
  | .arrayQ n t => "[" ++ toString n ++ "]" ++ typeRepr t
  | .structQ _ _ => "struct"
  | .mapQ k v => "map[" ++ typeRepr k ++ "]" ++ typeRepr v
  | .ifaceQ => "interface \x7b\x7d"
  | .namedQ name => name

/-- Dereference for possibly invalid values, following ElemSafe of
src/query.go. -/
def elemSafe : QVal → QVal
  | .vPtr (some e) => e
  | _ => .vInvalid

/-- Bounds-checked indexing, following IndexSafe of src/query.go. -/
def indexSafe (v : QVal) (i : Nat) : QVal :=
  match v with
  | .vList es => es.getD i .vInvalid
  | _ => .vInvalid

/-- Field projection for possibly invalid values, following FieldSafe of
src/query.go. -/
def fieldSafe (v : QVal) (i : Nat) : QVal :=
  match v with
  | .vStruct fs => fs.getD i .vInvalid
  | _ => .vInvalid

/-- Interface unboxing, modelling reflect.ValueOf(x.Interface()). -/
def unbox : QVal → Option (QType × QVal)
  | .vBox t v => some (t, v)
  | _ => none

/-- Interface-to-string cast, modelling key.Interface().(string); a
failed cast is the panic site of the pair extension. -/
def castString : QVal → Except String String
  | .vString s => .ok s
  | .vBox _ (.vString s) => .ok s
  | _ => .error "interface conversion: interface is not string"

mutual

/-- Writes a minified selection for t, following writeQuery of
src/query.go; the Nat argument is structural fuel that decreases at
every nested call, and the panics of the source are error values.  The
struct walk emits comma-separated fields, writing the graphql tag or
the lowered field name unless the field is anonymous and untagged, in
which case its selection is inlined.  A slice of length-2 arrays is the
ordered-map extension; a slice of arrays of any other length and every
plain map are rejected. -/
def writeQueryF : Nat → QType → QVal → Bool → Except String String
  | 0, _, _, _ => .error "selection fuel exhausted"
  | n+1, t, v, inline =>
    match t with
    | .ptrQ te => writeQueryF n te (elemSafe v) false
    | .structQ unm fields =>
        if unm then .ok "" else do
          let body ← writeFieldsF n fields v 0
          .ok ((if inline then "" else "\x7b") ++ body ++ (if inline then "" else "\x7d"))
    | .sliceQ te =>
        match te with
        | .arrayQ m e =>
            if m ≠ 2 then
              .error ("only arrays of len 2 are supported, got " ++ typeRepr (.arrayQ m e))
            else
              match v with
              | .vList pairs => do
                  let parts ← pairs.mapM (writePairF n)
                  .ok ("\x7b" ++ String.join parts ++ "\x7d")
              | _ => .error "reflect: call of Len on invalid Value"
        | _ => writeQueryF n te (indexSafe v 0) false
    | .mapQ kt vt =>
        .error ("type " ++ typeRepr (.mapQ kt vt) ++
          " is not supported, use [][2]interface\x7b\x7d instead")
    | .arrayQ _ _ => .ok ""
    | .ifaceQ => .ok ""
    | .namedQ _ => .ok ""

/-- Renders one element of the ordered-map pair slice: the first member
is cast to a string key, the second is unboxed from its interface and
its selection written after the key. -/
def writePairF : Nat → QVal → Except String String
  | 0, _ => .error "selection fuel exhausted"
  | n+1, pair =>
    match pair with
    | .vList [kv, vv] => do
        let ks ← castString kv
        match unbox vv with
        | some (bt, bv) => do
            let sub ← writeQueryF n bt bv false
            pure (ks ++ sub)
        | none => .error "reflect: call of Type on zero Value"
    | _ => .error "reflect: bad pair shape"

/-- Writes the comma-separated field list of a struct selection; i is
the running field index that decides comma placement. -/
def writeFieldsF : Nat → List (QField QType) → QVal → Nat → Except String String
  | 0, _, _, _ => .error "selection fuel exhausted"
  | _+1, [], _, _ => .ok ""
  | n+1, f :: rest, v, i => do
      let sep := if i = 0 then "" else ","
      let inlineField := f.anonymous && f.tag.isNone
      let namePart :=
        if inlineField then ""
        else match f.tag with
          | some value => value
          | none => toLowerCamelCase f.name
      let sub ← writeQueryF n f.typ (fieldSafe v i) inlineField
      let tail ← writeFieldsF n rest v (i + 1)
      .ok (sep ++ namePart ++ sub ++ tail)

end

/-- Synthesizes the whole selection for a destination, following the
query helper of src/query.go. -/
def queryF (n : Nat) (t : QType) (v : QVal) : Except String String :=
  writeQueryF n t v false

/-- Assembles a query operation, following constructQuery of
src/query.go: the selection is synthesized first, then prefixed with
the variable declarations exactly when the map has entries. -/
def constructQueryF (n : Nat) (t : QType) (v : QVal) (vars : GoMap) :
    Except String String := do
  let q ← queryF n t v
  if mapLen vars > 0 then
    pure ("query(" ++ queryArguments (mapEntries vars) ++ ")" ++ q)
  else pure q

/-- Assembles a mutation operation, following constructMutation of
src/query.go. -/
def constructMutationF (n : Nat) (t : QType) (v : QVal) (vars : GoMap) :
    Except String String := do
  let q ← queryF n t v
  if mapLen vars > 0 then
    pure ("mutation(" ++ queryArguments (mapEntries vars) ++ ")" ++ q)
  else pure ("mutation" ++ q)

/-! ## Response binder

The binder implementation (UnmarshalGraphQL of internal/jsonutil) is not
part of the sources, only its tests are; the definitions below are
modelled from the specification, section 4.F, pinned to the behaviour
the tests in src/graphql_test.go and src/internal/jsonutil assert. -/

/-- One JSON value. -/
inductive JSON where
  | str (s : String)
  | num (s : String)
  | bool (b : Bool)
  | null
  | arr (elems : List JSON)
  | obj (fields : List (String × JSON))

/-- Field of a destination record as the binder sees it: host name,
graphql tag, json tag, exportedness and type. -/
structure GField (τ : Type) where
  name : String
  graphqlTag : Option String
  jsonTag : Option String
  exported : Bool
  typ : τ

/-- Destination type for the binder: opaque scalar leaf, pointer, slice
or record. -/
inductive GoType where
  | scalarT
  | ptrT (t : GoType)
  | sliceT (t : GoType)
  | structT (fields : List (GField GoType))

/-- Destination value: a scalar holds the raw token it was fed (none
when zero), pointers and slices are options, records are field lists. -/
inductive GoValue where
  | scalarV (raw : Option JSON)
  | ptrV (e : Option GoValue)
  | sliceV (elems : Option (List GoValue))
  | structV (fields : List GoValue)

/-- Modelled from the spec: a graphql tag beginning with the inline
fragment marker makes the field a transparent union member. -/
def isFragmentTag (tag : String) : Bool := strBegins (trimSpaces tag) "... on"

/-- Modelled from the spec: an exported field whose graphql tag is an
inline fragment. -/
def isFragmentField (f : GField GoType) : Bool :=
  f.exported && (match f.graphqlTag with
    | some tag => isFragmentTag tag
    | none => false)

/-- Modelled from the spec and tests: strips an argument list and an
alias prefix from a graphql tag, so "alias(arg: 1)" yields "alias" and
"node1: node(id: ...)" yields "node1". -/
def stripTag (tag : String) : String :=
  trimSpaces (strTakeUntil ':' (strTakeUntil '(' tag))

/-- Modelled from the spec and tests: whether JSON key k selects field
f.  A present non-fragment graphql tag matches by its stripped form; a
fragment tag never matches directly; with no graphql tag the key
matches the json tag or the host name case-insensitively, as the test
TestUnmarshal_jsonTag of src/graphql_test.go pins.  Unexported fields
never match. -/
def hasGraphQLName (f : GField GoType) (k : String) : Bool :=
  if !f.exported then false
  else match f.graphqlTag with
    | some tag => if isFragmentTag tag then false else stripTag tag == k
    | none => f.jsonTag == some k || eqFold f.name k

/-- Modelled from the spec: the visible-field-name precedence sentence
of section 4.F read literally as a chain: (a) the graphql tag stripped
of its argument list when present and not a fragment; else (b) the json
tag; else (c) the host field name case-insensitively.  Stated only for
comparison with hasGraphQLName, which follows the repository tests. -/
def specVisibleMatch (f : GField GoType) (k : String) : Bool :=
  if !f.exported then false
  else match f.graphqlTag with
    | some tag => if isFragmentTag tag then false else stripTag tag == k
    | none =>
      match f.jsonTag with
      | some j => j == k
      | none => eqFold f.name k

/-- Record fields reachable through a fragment field, unwrapping one
pointer, for promotion. -/
def innerFields : GoType → Option (List (GField GoType))
  | .structT gs => some gs
  | .ptrT (.structT gs) => some gs
  | _ => none

/-- Modelled from the spec: whether key k can be placed in any of the
fields, descending transparently through inline-fragment members; the
Nat argument is structural fuel. -/
def keyMatchableF : Nat → String → List (GField GoType) → Bool
  | 0, _, _ => false
  | _+1, _, [] => false
  | n+1, k, f :: fs =>
      (if isFragmentField f then
        match innerFields f.typ with
        | some gs => keyMatchableF n k gs
        | none => false
      else hasGraphQLName f k) || keyMatchableF n k fs

/-- Zero value of a destination type, fuel-bounded. -/
def zeroValueF : Nat → GoType → GoValue
  | 0, _ => .structV []
  | n+1, t =>
    match t with
    | .scalarT => .scalarV none
    | .ptrT _ => .ptrV none
    | .sliceT _ => .sliceV none
    | .structT fs => .structV (fs.map fun f => zeroValueF n f.typ)

/-- Zero values of a field list, fuel-bounded. -/
def zeroFieldsF (n : Nat) (gs : List (GField GoType)) : List GoValue :=
  gs.map fun g => zeroValueF n g.typ

/-- Failure raised when a key fits no destination. -/
def unplaceableMsg (k : String) : String :=
  "struct field for " ++ jsonString k ++ " does not exist in any of the places to unmarshal"

/-- Failure raised when a token does not fit the destination kind. -/
def shapeMismatchMsg : String := "json token does not fit the destination kind"

/-- Argument of the binder core: either a whole JSON value entering a
destination, or one object member being offered to one field. -/
inductive BArg where
  | top (jv : JSON) (t : GoType) (v : GoValue)
  | fld (k : String) (jv : JSON) (f : GField GoType) (v : GoValue)

/-- Modelled from the spec, section 4.F: the candidate-frame binder.  A
null resets the destination to its zero value; a pointer allocates and
descends; an array resets every destination sequence and binds each
element into a fresh zero element; a scalar destination stores the raw
token verbatim; a record destination walks the object members in order,
raising Unplaceable for a member no field can take, and otherwise
offering the member to every field: an inline-fragment field accepts it
into its promoted inner record (lazily allocating a pointer member)
whenever the key matches inside, a plain field accepts it when
hasGraphQLName holds, and every accepting field receives the value, so
a member common to several fragment subtrees fans out to all of them.
The Nat argument is structural fuel decreasing at every nested call. -/
def bindCore : Nat → BArg → Except String GoValue
  | 0, _ => .error "binder fuel exhausted"
  | n+1, .top jv t v =>
    match jv, t with
    | .null, _ => .ok (zeroValueF n t)
    | _, .ptrT te => do
        let inner := match v with
          | .ptrV (some e) => e
          | _ => zeroValueF n te
        .ok (.ptrV (some (← bindCore n (.top jv te inner))))
    | .arr elems, .sliceT te => do
        .ok (.sliceV (some (← elems.mapM (fun e =>
          bindCore n (.top e te (zeroValueF n te))))))
    | _, .sliceT _ => .error shapeMismatchMsg
    | _, .scalarT => .ok (.scalarV (some jv))
    | .obj kvs, .structT fs =>
        (match v with
        | .structV vs => do
            .ok (.structV (← kvs.foldlM (fun acc kj =>
              if keyMatchableF n kj.1 fs then
                (fs.zip acc).mapM (fun p => bindCore n (.fld kj.1 kj.2 p.1 p.2))
              else .error (unplaceableMsg kj.1)) vs))
        | _ => .error "destination is not a record value")
    | _, .structT _ => .error shapeMismatchMsg
  | n+1, .fld k jv f v =>
    if isFragmentField f then
      match f.typ, v with
      | .structT gs, .structV ws =>
          if keyMatchableF n k gs then do
            .ok (.structV (← (gs.zip ws).mapM (fun p => bindCore n (.fld k jv p.1 p.2))))
          else .ok v
      | .ptrT (.structT gs), _ =>
          if keyMatchableF n k gs then do
            let ws := match v with
              | .ptrV (some (.structV l)) => l
              | _ => zeroFieldsF n gs
            .ok (.ptrV (some (.structV (← (gs.zip ws).mapM
              (fun p => bindCore n (.fld k jv p.1 p.2))))))
          else .ok v
      | _, _ => .ok v
    else if hasGraphQLName f k then bindCore n (.top jv f.typ v)
    else .ok v

/-- Binds one JSON value into a destination. -/
def bindF (n : Nat) (jv : JSON) (t : GoType) (v : GoValue) : Except String GoValue :=
  bindCore n (.top jv t v)

/-- Offers one object member to one field. -/
def updateFieldF (n : Nat) (k : String) (jv : JSON) (f : GField GoType) (v : GoValue) :
    Except String GoValue :=
  bindCore n (.fld k jv f v)

/-! ## Client post-decode logic (do of src/graphql.go)

The model starts from the decoded response envelope, after transport and
status handling: the data payload (absent when the key is missing or
null) and the decoded errors array. -/

/-- One element of the errors array of a GraphQL response. -/
structure GError where
  message : String
  locations : List (Nat × Nat)
deriving DecidableEq

/-- Decoded response envelope. -/
structure Envelope where
  data : Option JSON
  errs : List GError

/-- Error outcome of Client.do: a binder failure or the errors
collection returned through the error interface. -/
inductive DoError where
  | bindError (msg : String)
  | gqlErrors (es : List GError)
deriving DecidableEq

/-- Post-decode logic of Client.do in src/graphql.go: when data is
present the binder runs on it first and a binder failure returns
immediately; otherwise, when the decoded errors array is non-empty it
is returned as the error; the possibly populated destination is
returned in both cases. -/
def clientDo (n : Nat) (env : Envelope) (t : GoType) (v0 : GoValue) :
    GoValue × Option DoError :=
  match env.data with
  | some d =>
      match bindF n d t v0 with
      | .ok v1 =>
          if env.errs.length > 0 then (v1, some (.gqlErrors env.errs)) else (v1, none)
      | .error e => (v0, some (.bindError e))
  | none =>
      if env.errs.length > 0 then (v0, some (.gqlErrors env.errs)) else (v0, none)

/-- The Error method of the errors collection in src/graphql.go reads
the message of element 0 with no emptiness guard; the out-of-range
panic of the empty case is modelled as none. -/
def errorsError (es : List GError) : Option String :=
  es.head?.map GError.message

/-! ## Helper lemmas -/

theorem str_append_empty (s : String) : s ++ "" = s := by
  cases s with
  | mk l => exact congrArg String.mk (List.append_nil l)

theorem lexLe_total (xs ys : List Nat) : lexLe xs ys = true ∨ lexLe ys xs = true := by
  induction xs generalizing ys with
  | nil => left; simp [lexLe]
  | cons x xs ih =>
    cases ys with
    | nil => right; simp [lexLe]
    | cons y ys =>
      rcases Nat.lt_trichotomy x y with h | h | h
      · left; simp [lexLe, h]
      · subst h
        rcases ih ys with h2 | h2
        · left; simp [lexLe, h2]
        · right; simp [lexLe, h2]
      · right; simp [lexLe, h]

theorem lexLe_trans (xs ys zs : List Nat) (h1 : lexLe xs ys = true)
    (h2 : lexLe ys zs = true) : lexLe xs zs = true := by
  induction xs generalizing ys zs with
  | nil => simp [lexLe]
  | cons x xs ih =>
    cases ys with
    | nil => simp [lexLe] at h1
    | cons y ys =>
      cases zs with
      | nil => simp [lexLe] at h2
      | cons z zs =>
        simp only [lexLe, Bool.or_eq_true, Bool.and_eq_true, decide_eq_true_eq,
          beq_iff_eq] at h1 h2 ⊢
        rcases h1 with h1 | ⟨h1e, h1r⟩
        · rcases h2 with h2 | ⟨h2e, h2r⟩
          · exact Or.inl (Nat.lt_trans h1 h2)
          · exact Or.inl (h2e ▸ h1)
        · rcases h2 with h2 | ⟨h2e, h2r⟩
          · exact Or.inl (h1e ▸ h2)
          · exact Or.inr ⟨h1e.trans h2e, ih ys zs h1r h2r⟩

theorem lexLe_antisymm (xs ys : List Nat) (h1 : lexLe xs ys = true)
    (h2 : lexLe ys xs = true) : xs = ys := by
  induction xs generalizing ys with
  | nil =>
    cases ys with
    | nil => rfl
    | cons y ys => simp [lexLe] at h2
  | cons x xs ih =>
    cases ys with
    | nil => simp [lexLe] at h1
    | cons y ys =>
      simp only [lexLe, Bool.or_eq_true, Bool.and_eq_true, decide_eq_true_eq,
        beq_iff_eq] at h1 h2
      rcases h1 with h1 | ⟨h1e, h1r⟩
      · rcases h2 with h2 | ⟨h2e, _⟩
        · exact absurd (Nat.lt_trans h1 h2) (Nat.lt_irrefl x)
        · exact absurd h1 (by omega)
      · rcases h2 with h2 | ⟨_, h2r⟩
        · exact absurd h2 (by omega)
        · exact h1e ▸ congrArg (x :: ·) (ih ys h1r h2r)

theorem charToNat_inj {c d : Char} (h : c.toNat = d.toNat) : c = d := by
  have := Char.ofNat_toNat c
  rw [h, Char.ofNat_toNat d] at this
  exact this.symm

theorem charCodes_inj {a b : String} (h : charCodes a = charCodes b) : a = b := by
  cases a with
  | mk la =>
    cases b with
    | mk lb =>
      simp only [charCodes] at h
      have : la = lb := by
        clear * - h
        induction la generalizing lb with
        | nil => cases lb with | nil => rfl | cons _ _ => simp at h
        | cons c cs ih =>
          cases lb with
          | nil => simp at h
          | cons d ds =>
            simp only [List.map_cons, List.cons.injEq] at h
            exact congrArg₂ (· :: ·) (charToNat_inj h.1) (ih ds h.2)
      exact congrArg String.mk this


/-! ## Claim C6: the printed GraphQL type of a variable -/

/-- C6 counterexample: the claim states that a slice type prints as the
bracketed required element type with no trailing bang, but
writeArgumentType of src/query.go appends the bang after the bracket
whenever the context is required, so a required slice of Int prints as
bracketed Int bang followed by another bang. -/
theorem c6_counterexample :
    writeArgumentType (.slice (.named "Int")) true = "[Int!]!" ∧
    "[Int!]!" ≠ "[" ++ writeArgumentType (.named "Int") true ++ "]" :=
  ⟨rfl, by decide⟩

/-- C6 amended: a pointer prints as its element type rendered optional;
a slice or array prints as the bracketed required element type followed
by a bang exactly when the context is required; any other type prints
its unqualified name, with string re-spelled ID, followed by a bang
exactly when the context is required; and a single-entry variables map
declares its key with the type printed as required. -/
theorem c6_argument_type_rules (t : RType) (value : Bool) :
    writeArgumentType (.ptr t) value = writeArgumentType t false ∧
    writeArgumentType (.slice t) value =
      "[" ++ writeArgumentType t true ++ "]" ++ (if value then "!" else "") ∧
    (∀ m : Nat, writeArgumentType (.array m t) value =
      "[" ++ writeArgumentType t true ++ "]" ++ (if value then "!" else "")) ∧
    (∀ name : String, writeArgumentType (.named name) value =
      (if name = "string" then "ID" else name) ++ (if value then "!" else "")) ∧
    (∀ (k enc : String) (rt : RType), queryArguments [⟨k, rt, enc⟩] =
      "$" ++ k ++ ":" ++ writeArgumentType rt true) := by
  refine ⟨rfl, rfl, fun m => rfl, fun name => rfl, fun k enc rt => ?_⟩
  simp [queryArguments, List.insertionSort, List.orderedInsert, lookupVar,
    String.join, String.append_assoc]

/-! ## Claim C9: variables whose host type has no declarable name -/

/-- C9 counterexample: the claim states that the variable-type printer
fails with UnprintableType on a type with no declarable name, but
writeArgumentType of src/query.go has no failure path: it writes the
empty name, so a required anonymous type prints as a bare bang and a
variable k of such a type is declared as a malformed dollar k colon
bang. -/
theorem c9_counterexample :
    writeArgumentType .anon true = "!" ∧
    queryArguments [⟨"k", .anon, "\x7b\x7d"⟩] = "$k:!" :=
  ⟨rfl, rfl⟩

/-- C9 amended: the printer does not fail on a name-less type; it emits
the empty name, so the printed type is a bang exactly when the context
is required, and the declaration for such a variable degenerates to the
key followed by a colon and a bare bang. -/
theorem c9_nameless_type_prints_empty :
    (∀ value : Bool, writeArgumentType .anon value = if value then "!" else "") ∧
    (∀ k enc : String, queryArguments [⟨k, .anon, enc⟩] = "$" ++ k ++ ":!") := by
  constructor
  · intro value; cases value <;> rfl
  · intro k enc
    simp only [queryArguments, List.map_cons, List.map_nil, List.insertionSort,
      List.orderedInsert, lookupVar, if_pos rfl, String.join, List.foldl,
      writeArgumentType, String.append_assoc]
    rfl

/-! ## Claim C7: scalar opacity in selection synthesis -/

/-- C7: a struct type whose pointer implements json.Unmarshaler emits
nothing from writeQuery of src/query.go, directly, behind a pointer,
and as a field, where only the field name appears with no braces for
the scalar. -/
theorem c7_scalar_opacity (n : Nat) (fs : List (QField QType)) (v : QVal) (inline : Bool) :
    writeQueryF (n+1) (.structQ true fs) v inline = .ok "" ∧
    writeQueryF (n+2) (.ptrQ (.structQ true fs)) v inline = .ok "" ∧
    (∀ (name : String) (w : QVal),
      writeQueryF (n+3) (.structQ false [⟨name, none, false, .structQ true fs⟩]) w false =
        .ok ("\x7b" ++ toLowerCamelCase name ++ "\x7d")) := by
  refine ⟨rfl, rfl, fun name w => ?_⟩
  show (do
    let body ← writeFieldsF (n+2) [⟨name, none, false, QType.structQ true fs⟩] w 0
    Except.ok ("\x7b" ++ body ++ "\x7d") : Except String String) = _
  simp only [writeFieldsF, writeQueryF]
  show Except.ok ("\x7b" ++ ("" ++ toLowerCamelCase name ++ "" ++ "") ++ "\x7d") = _
  rw [show "" ++ toLowerCamelCase name ++ "" ++ "" = toLowerCamelCase name by
    simp [str_append_empty]]

/-! ## Claim C8: ordered-map extension and rejected mappings -/

/-- Every well-shaped pair list renders member-wise when each boxed
value renders successfully. -/
theorem writePairs_mapM (n : Nat) (pairs : List (String × QType × QVal)) (outs : List String)
    (h : List.Forall₂ (fun p out => writeQueryF n p.2.1 p.2.2 false = .ok out) pairs outs) :
    (pairs.map fun p => QVal.vList [.vString p.1, .vBox p.2.1 p.2.2]).mapM (writePairF (n+1)) =
      .ok (List.zipWith (fun p out => p.1 ++ out) pairs outs) := by
  induction h with
  | nil => rfl
  | cons hpo hrest ih =>
    rename_i p out ps os
    simp only [List.map_cons, List.mapM_cons, List.zipWith_cons_cons]
    rw [show writePairF (n+1) (.vList [.vString p.1, .vBox p.2.1 p.2.2]) = .ok (p.1 ++ out) by
      simp only [writePairF, castString, unbox, hpo]; rfl, ih]
    rfl

/-- C8: during selection synthesis a plain map type is rejected with the
unordered-map failure, a slice of fixed-size arrays of length other
than two is rejected with the pair-shape failure, and a slice of
length-2 pairs whose members render successfully is accepted and
rendered as a braced ordered inner selection with each key followed by
the selection of its boxed value. -/
theorem c8_map_and_pair_rules :
    (∀ (n : Nat) (kt vt : QType) (v : QVal) (inline : Bool),
      writeQueryF (n+1) (.mapQ kt vt) v inline =
        .error ("type " ++ typeRepr (.mapQ kt vt) ++
          " is not supported, use [][2]interface\x7b\x7d instead")) ∧
    (∀ (n m : Nat) (e : QType) (v : QVal) (inline : Bool), m ≠ 2 →
      writeQueryF (n+1) (.sliceQ (.arrayQ m e)) v inline =
        .error ("only arrays of len 2 are supported, got " ++ typeRepr (.arrayQ m e))) ∧
    (∀ (n : Nat) (e : QType) (inline : Bool)
      (pairs : List (String × QType × QVal)) (outs : List String),
      List.Forall₂ (fun p out => writeQueryF n p.2.1 p.2.2 false = .ok out) pairs outs →
      writeQueryF (n+2) (.sliceQ (.arrayQ 2 e))
          (.vList (pairs.map fun p => .vList [.vString p.1, .vBox p.2.1 p.2.2])) inline =
        .ok ("\x7b" ++ String.join (List.zipWith (fun p out => p.1 ++ out) pairs outs) ++ "\x7d")) := by
  refine ⟨fun n kt vt v inline => rfl, fun n m e v inline hm => ?_, fun n e inline pairs outs h => ?_⟩
  · simp only [writeQueryF, ne_eq]
    rw [if_pos hm]
  · simp only [writeQueryF, ne_eq, not_true_eq_false]
    rw [if_neg (by simp)]
    rw [writePairs_mapM n pairs outs h]
    rfl

/-! ## Claim C8 witness -/

/-- C8 witness: the three rules at concrete inputs; a map from string,
a slice of length-3 arrays, and a singleton pair slice whose value is a
one-field record. -/
theorem c8_map_and_pair_rules_witness :
    writeQueryF 5 (.mapQ (.namedQ "string") .ifaceQ) .vInvalid false =
      .error "type map[string]interface \x7b\x7d is not supported, use [][2]interface\x7b\x7d instead" ∧
    writeQueryF 5 (.sliceQ (.arrayQ 3 .ifaceQ)) .vInvalid false =
      .error "only arrays of len 2 are supported, got [3]interface \x7b\x7d" ∧
    writeQueryF 5 (.sliceQ (.arrayQ 2 .ifaceQ))
        (.vList [.vList [.vString "key",
          .vBox (.structQ false [⟨"Inner", none, false, .namedQ "Int"⟩]) (.vStruct [.vOpaque])]]) false =
      .ok "\x7bkey\x7binner\x7d\x7d" :=
  ⟨c8_map_and_pair_rules.1 4 (.namedQ "string") .ifaceQ .vInvalid false,
   c8_map_and_pair_rules.2.1 4 3 .ifaceQ .vInvalid false (by decide),
   c8_map_and_pair_rules.2.2 3 .ifaceQ false
     [("key", (.structQ false [⟨"Inner", none, false, .namedQ "Int"⟩]), (.vStruct [.vOpaque]))]
     ["\x7binner\x7d"] (List.Forall₂.cons rfl List.Forall₂.nil)⟩

/-! ## Claim C4: empty variables -/

/-- C4: when the variables map has no entries, nil or not, the query
operation is the bare selection set, the mutation operation is the
keyword mutation followed by the selection set, the serialized request
body has no variables key, and a non-nil empty map behaves exactly as
a nil map. -/
theorem c4_empty_variables (n : Nat) (t : QType) (v : QVal) (m : GoMap)
    (h : mapLen m = 0) :
    constructQueryF n t v m = queryF n t v ∧
    constructMutationF n t v m = (queryF n t v).map (fun s => "mutation" ++ s) ∧
    (∀ q, requestBody q m = "\x7b\"query\":" ++ jsonString q ++ "\x7d\n") ∧
    constructQueryF n t v (some []) = constructQueryF n t v none ∧
    constructMutationF n t v (some []) = constructMutationF n t v none ∧
    (∀ q, requestBody q (some []) = requestBody q none) := by
  have key : ∀ m' : GoMap, mapLen m' = 0 →
      constructQueryF n t v m' = queryF n t v ∧
      constructMutationF n t v m' = (queryF n t v).map (fun s => "mutation" ++ s) ∧
      (∀ q, requestBody q m' = "\x7b\"query\":" ++ jsonString q ++ "\x7d\n") := by
    intro m' h'
    have hgt : ¬ mapLen m' > 0 := by omega
    refine ⟨?_, ?_, ?_⟩
    · unfold constructQueryF
      rcases hq : queryF n t v with e | a
      · rfl
      · show (if mapLen m' > 0 then _ else pure a : Except String String) = _
        rw [if_neg hgt]
        rfl
    · unfold constructMutationF
      rcases hq : queryF n t v with e | a
      · rfl
      · show (if mapLen m' > 0 then _ else pure ("mutation" ++ a) : Except String String) = _
        rw [if_neg hgt]
        rfl
    · intro q
      unfold requestBody
      rw [if_neg hgt, str_append_empty]
  rcases key m h with ⟨k1, k2, k3⟩
  rcases key (some []) rfl with ⟨e1, e2, e3⟩
  rcases key none rfl with ⟨n1, n2, n3⟩
  exact ⟨k1, k2, k3, e1.trans n1.symm, e2.trans n2.symm,
    fun q => (e3 q).trans (n3 q).symm⟩

/-- C4 witness: at the shape of TestClient_Query_emptyVariables of the
source tests, the empty non-nil map produces the bare selection and a
request body with no variables key. -/
theorem c4_empty_variables_witness :
    constructQueryF 5 (.structQ false [⟨"User", none, false,
        .structQ false [⟨"Name", none, false, .namedQ "string"⟩]⟩]) .vInvalid (some []) =
      queryF 5 (.structQ false [⟨"User", none, false,
        .structQ false [⟨"Name", none, false, .namedQ "string"⟩]⟩]) .vInvalid ∧
    requestBody "\x7buser\x7bname\x7d\x7d" (some []) =
      "\x7b\"query\":\"\x7buser\x7bname\x7d\x7d\"\x7d\n" :=
  ⟨(c4_empty_variables 5 _ .vInvalid (some []) rfl).1,
   ((c4_empty_variables 5 (.structQ false [⟨"User", none, false,
        .structQ false [⟨"Name", none, false, .namedQ "string"⟩]⟩]) .vInvalid (some []) rfl).2.2.1
      "\x7buser\x7bname\x7d\x7d").trans rfl⟩

/-! ## Claim C3: determinism of synthesis -/

/-- Map indexing does not depend on iteration order when keys are
distinct. -/
theorem lookupVar_perm (k : String) :
    ∀ {l₁ l₂ : List VarEntry}, l₁.Perm l₂ → ((l₁.map VarEntry.key).Nodup) →
      lookupVar k l₁ = lookupVar k l₂ := by
  intro l₁ l₂ h
  induction h with
  | nil => intro _; rfl
  | cons x h ih =>
    intro nd
    simp only [List.map_cons, List.nodup_cons] at nd
    simp only [lookupVar]
    rw [ih nd.2]
  | swap x y l =>
    intro nd
    simp only [List.map_cons, List.nodup_cons, List.mem_cons] at nd
    have hxy : y.key ≠ x.key := fun hk => nd.1 (Or.inl hk)
    by_cases hky : y.key = k <;> by_cases hkx : x.key = k
    · exact absurd (hky.trans hkx.symm) hxy
    · simp [lookupVar, hky, hkx]
    · simp [lookupVar, hky, hkx]
    · simp [lookupVar, hky, hkx]
  | trans h₁ h₂ ih₁ ih₂ =>
    intro nd
    have ndm := ((h₁.map VarEntry.key).nodup_iff).mp nd
    exact (ih₁ nd).trans (ih₂ ndm)

/-- The declarations string does not depend on iteration order when
keys are distinct: the key list is sorted and the values are fetched by
key. -/
theorem queryArguments_perm {l₁ l₂ : List VarEntry} (h : l₁.Perm l₂)
    (nd : (l₁.map VarEntry.key).Nodup) : queryArguments l₁ = queryArguments l₂ := by
  haveI : IsTotal String keyLe := ⟨fun a b => lexLe_total (charCodes a) (charCodes b)⟩
  haveI : IsTrans String keyLe := ⟨fun _ _ _ => lexLe_trans _ _ _⟩
  haveI : IsAntisymm String keyLe :=
    ⟨fun _ _ h1 h2 => charCodes_inj (lexLe_antisymm _ _ h1 h2)⟩
  have hkeys : (l₁.map VarEntry.key).insertionSort keyLe =
      (l₂.map VarEntry.key).insertionSort keyLe := by
    refine List.eq_of_perm_of_sorted ?_ (List.sorted_insertionSort keyLe _)
      (List.sorted_insertionSort keyLe _)
    exact (List.perm_insertionSort keyLe _).trans
      ((h.map VarEntry.key).trans (List.perm_insertionSort keyLe _).symm)
  unfold queryArguments
  rw [hkeys]
  congr 1
  apply List.map_congr_left
  intro a _
  rw [lookupVar_perm a h nd]

/-- C3: query synthesis is deterministic: the assembled operation reads
the destination type in declaration order through a pure function, and
for any two iteration orders of the same variables map the variable
declarations, the whole query and the whole mutation are byte-wise
identical. -/
theorem c3_synthesis_deterministic (n : Nat) (t : QType) (v : QVal) (m₁ m₂ : GoMap)
    (h : (mapEntries m₁).Perm (mapEntries m₂))
    (nd : ((mapEntries m₁).map VarEntry.key).Nodup) :
    queryArguments (mapEntries m₁) = queryArguments (mapEntries m₂) ∧
    constructQueryF n t v m₁ = constructQueryF n t v m₂ ∧
    constructMutationF n t v m₁ = constructMutationF n t v m₂ := by
  have hq := queryArguments_perm h nd
  have hlen : mapLen m₁ = mapLen m₂ := h.length_eq
  refine ⟨hq, ?_, ?_⟩
  · unfold constructQueryF
    rcases queryF n t v with e | a
    · rfl
    · show (if mapLen m₁ > 0 then _ else _ : Except String String) = _
      rw [hq, hlen]
      rfl
  · unfold constructMutationF
    rcases queryF n t v with e | a
    · rfl
    · show (if mapLen m₁ > 0 then _ else _ : Except String String) = _
      rw [hq, hlen]
      rfl

/-- C3 witness: the two iteration orders of a two-variable map produce
the same declarations, and they evaluate to the sorted ascending
form. -/
theorem c3_synthesis_deterministic_witness :
    queryArguments [⟨"b", .named "Boolean", "true"⟩, ⟨"a", .named "Int", "1"⟩] =
      queryArguments [⟨"a", .named "Int", "1"⟩, ⟨"b", .named "Boolean", "true"⟩] ∧
    queryArguments [⟨"b", .named "Boolean", "true"⟩, ⟨"a", .named "Int", "1"⟩] =
      "$a:Int!$b:Boolean!" :=
  ⟨(c3_synthesis_deterministic 1 .ifaceQ .vInvalid
      (some [⟨"b", .named "Boolean", "true"⟩, ⟨"a", .named "Int", "1"⟩])
      (some [⟨"a", .named "Int", "1"⟩, ⟨"b", .named "Boolean", "true"⟩])
      (by decide) (by decide)).1,
   rfl⟩

/-! ## Claim C5: visible-name matching of the binder -/

/-- C5 counterexample: at the input of TestUnmarshal_jsonTag of
src/graphql_test.go, a field named Foo carrying only the json tag baz is
matched by the JSON key foo through the case-insensitive host name even
though the json tag is present, and the binder populates it; under the
precedence chain of the claim the visible name would be baz and the key
foo would match nothing. -/
theorem c5_counterexample :
    specVisibleMatch ⟨"Foo", none, some "baz", true, .scalarT⟩ "foo" = false ∧
    hasGraphQLName ⟨"Foo", none, some "baz", true, .scalarT⟩ "foo" = true ∧
    bindF 5 (.obj [("foo", .str "bar")]) (.structT [⟨"Foo", none, some "baz", true, .scalarT⟩])
        (.structV [.scalarV none]) = .ok (.structV [.scalarV (some (.str "bar"))]) :=
  ⟨rfl, rfl, rfl⟩

/-- C5 amended: a key k selects a field as follows: when a graphql tag
is present and is not an inline fragment, k must equal the tag with its
argument list and alias suffix stripped; when no graphql tag is
present, k matches if it equals the json tag or the host field name
case-insensitively (the json tag does not shadow the name).  On a
single-field scalar record the binder populates the field exactly when
the matcher accepts the key and raises the unplaceable failure
otherwise. -/
theorem c5_field_matching (n : Nat) (f : GField GoType) (k s : String)
    (hex : f.exported = true)
    (hfr : (match f.graphqlTag with | some tag => isFragmentTag tag | none => false) = false)
    (ht : f.typ = .scalarT) :
    (hasGraphQLName f k = true ↔
      (match f.graphqlTag with
       | some tag => stripTag tag = k
       | none => f.jsonTag = some k ∨ eqFold f.name k = true)) ∧
    bindF (n+3) (.obj [(k, .str s)]) (.structT [f]) (.structV [.scalarV none]) =
      (if hasGraphQLName f k then .ok (.structV [.scalarV (some (.str s))])
       else .error (unplaceableMsg k)) := by
  obtain ⟨nm, gtag, jtag, ex, ty⟩ := f
  simp only at hex hfr ht
  subst hex
  subst ht
  have hff : isFragmentField ⟨nm, gtag, jtag, true, .scalarT⟩ = false := by
    simp only [isFragmentField, Bool.true_and]
    exact hfr
  constructor
  · cases gtag with
    | some tag =>
      have htag : isFragmentTag tag = false := hfr
      simp [hasGraphQLName, htag]
    | none => simp [hasGraphQLName]
  · have hcond : keyMatchableF (n+2) k [⟨nm, gtag, jtag, true, .scalarT⟩] =
        hasGraphQLName ⟨nm, gtag, jtag, true, .scalarT⟩ k := by
      simp [keyMatchableF, hff]
    by_cases hm : hasGraphQLName ⟨nm, gtag, jtag, true, .scalarT⟩ k = true
    · simp only [bindF, bindCore, List.foldlM, hcond, hm, if_true, List.zip,
        List.zipWith, List.mapM_cons, List.mapM_nil, hff, Bool.false_eq_true,
        if_false]
      rfl
    · rw [if_neg hm]
      have hmf : hasGraphQLName ⟨nm, gtag, jtag, true, .scalarT⟩ k = false :=
        Bool.not_eq_true _ ▸ Bool.of_not_eq_true hm
      simp only [bindF, bindCore, List.foldlM, hcond, hmf, Bool.false_eq_true, if_false]
      rfl

/-- C5 amended witness: the jsonTag test input, where the matcher
accepts key foo for field Foo tagged json baz and the binder stores the
string bar. -/
theorem c5_field_matching_witness :
    (hasGraphQLName ⟨"Foo", none, some "baz", true, .scalarT⟩ "foo" = true ↔
      ((some "baz" : Option String) = some "foo" ∨ eqFold "Foo" "foo" = true)) ∧
    bindF 3 (.obj [("foo", .str "bar")]) (.structT [⟨"Foo", none, some "baz", true, .scalarT⟩])
        (.structV [.scalarV none]) =
      (if hasGraphQLName ⟨"Foo", none, some "baz", true, .scalarT⟩ "foo" then
        .ok (.structV [.scalarV (some (.str "bar"))])
       else .error (unplaceableMsg "foo")) :=
  c5_field_matching 0 ⟨"Foo", none, some "baz", true, .scalarT⟩ "foo" "bar" rfl rfl rfl

/-! ## Claim C2: partial successes -/

/-- C2: when the envelope holds both a data payload and a non-empty
errors array, Client.do runs the binder on the data first and then
returns the errors collection as the error, with the destination left
in its populated state; and a null in the data resets the matching
destination to its zero value, nil for pointers and slices. -/
theorem c2_partial_success (n : Nat) (d : JSON) (es : List GError) (t : GoType)
    (v0 v1 : GoValue) (hes : es ≠ []) (hb : bindF n d t v0 = .ok v1) :
    clientDo n ⟨some d, es⟩ t v0 = (v1, some (.gqlErrors es)) ∧
    (∀ (m : Nat) (te : GoType) (w : GoValue), bindF (m+1) .null te w = .ok (zeroValueF m te)) := by
  constructor
  · show (match bindF n d t v0 with
      | .ok v1 => if es.length > 0 then (v1, some (DoError.gqlErrors es)) else (v1, none)
      | .error e => (v0, some (.bindError e))) = _
    rw [hb]
    show (if es.length > 0 then (v1, some (DoError.gqlErrors es)) else (v1, none)) = _
    rw [if_pos (List.length_pos.mpr hes)]
  · intro m te w
    cases te <;> rfl

/-- C2 witness: the partial-data test of the sources: node1 is
populated, node2 is null and stays nil, and the one-element errors
array is returned while the destination keeps its state. -/
theorem c2_partial_success_witness :
    clientDo 10
      ⟨some (.obj [("node1", .obj [("id", .str "MDEy")]), ("node2", .null)]),
        [⟨"Could not resolve to a node with the global id of NotExist", [(10, 4)]⟩]⟩
      (.structT [⟨"Node1", some "node1: node(id: \"MDEy\")", none, true,
          .ptrT (.structT [⟨"ID", none, none, true, .scalarT⟩])⟩,
        ⟨"Node2", some "node2: node(id: \"NotExist\")", none, true,
          .ptrT (.structT [⟨"ID", none, none, true, .scalarT⟩])⟩])
      (.structV [.ptrV none, .ptrV none]) =
    (.structV [.ptrV (some (.structV [.scalarV (some (.str "MDEy"))])), .ptrV none],
      some (.gqlErrors [⟨"Could not resolve to a node with the global id of NotExist",
        [(10, 4)]⟩])) :=
  (c2_partial_success 10
    (.obj [("node1", .obj [("id", .str "MDEy")]), ("node2", .null)])
    [⟨"Could not resolve to a node with the global id of NotExist", [(10, 4)]⟩]
    (.structT [⟨"Node1", some "node1: node(id: \"MDEy\")", none, true,
        .ptrT (.structT [⟨"ID", none, none, true, .scalarT⟩])⟩,
      ⟨"Node2", some "node2: node(id: \"NotExist\")", none, true,
        .ptrT (.structT [⟨"ID", none, none, true, .scalarT⟩])⟩])
    (.structV [.ptrV none, .ptrV none])
    (.structV [.ptrV (some (.structV [.scalarV (some (.str "MDEy"))])), .ptrV none])
    (by decide) rfl).1

/-! ## Claim C10: the errors collection returned by Client.do -/

/-- C10 counterexample: with a non-empty decoded errors array and a
data payload the binder rejects, Client.do returns the binder failure
and not the errors collection, so the biconditional of the claim fails
in the only-if direction conditioned on data; the errors array has
length one here, yet the error returned is not the collection. -/
theorem c10_counterexample :
    clientDo 5 ⟨some (.str "x"), [⟨"boom", []⟩]⟩ (.structT []) (.structV []) =
      (.structV [], some (.bindError shapeMismatchMsg)) ∧
    ([⟨"boom", []⟩] : List GError).length > 0 ∧
    some (DoError.bindError shapeMismatchMsg) ≠
      some (DoError.gqlErrors [⟨"boom", []⟩]) :=
  ⟨rfl, by decide, by decide⟩

/-- C10 amended: Error reads element 0 of the collection without a
guard and is total only on non-empty collections; Client.do returns an
errors collection only when the decoded errors array is non-empty, and
it does return the collection whenever the array is non-empty and the
data payload is absent or binds successfully; hence every collection
that reaches a caller is non-empty and its Error call is defined. -/
theorem c10_errors_nonempty_invariant :
    (∀ (n : Nat) (env : Envelope) (t : GoType) (v0 v1 : GoValue) (es : List GError),
      clientDo n env t v0 = (v1, some (.gqlErrors es)) →
      es ≠ [] ∧ (errorsError es).isSome) ∧
    (∀ (n : Nat) (env : Envelope) (t : GoType) (v0 : GoValue),
      env.errs ≠ [] →
      (env.data = none ∨ ∃ d v1, env.data = some d ∧ bindF n d t v0 = .ok v1) →
      ∃ v2, clientDo n env t v0 = (v2, some (.gqlErrors env.errs))) := by
  constructor
  · intro n env t v0 v1 es h
    obtain ⟨dat, errs⟩ := env
    have key : es = errs ∧ errs.length > 0 := by
      rcases dat with _ | d
      · simp only [clientDo] at h
        split at h
        · rename_i hl
          simp only [Prod.mk.injEq, Option.some.injEq, DoError.gqlErrors.injEq] at h
          exact ⟨h.2.symm, hl⟩
        · simp at h
      · simp only [clientDo] at h
        split at h
        · rename_i v2 hbind
          split at h
          · rename_i hl
            simp only [Prod.mk.injEq, Option.some.injEq, DoError.gqlErrors.injEq] at h
            exact ⟨h.2.symm, hl⟩
          · simp at h
        · simp at h
    refine ⟨fun he => by simp [he, key.1 ▸ he] at key, ?_⟩
    rcases key with ⟨rfl, hl⟩
    cases es with
    | nil => simp at hl
    | cons e es => simp [errorsError]
  · intro n env t v0 hne hd
    obtain ⟨dat, errs⟩ := env
    have hl : errs.length > 0 := List.length_pos.mpr hne
    rcases hd with hnone | ⟨d, v1, hsome, hb⟩
    · simp only at hnone
      subst hnone
      exact ⟨v0, by simp only [clientDo]; rw [if_pos hl]⟩
    · simp only at hsome
      subst hsome
      refine ⟨v1, ?_⟩
      show (match bindF n d t v0 with
        | .ok v2 => if errs.length > 0 then (v2, some (DoError.gqlErrors errs)) else (v2, none)
        | .error e => (v0, some (.bindError e))) = _
      rw [hb]
      show (if errs.length > 0 then (v1, some (DoError.gqlErrors errs)) else (v1, none)) = _
      rw [if_pos hl]

/-- C10 amended witness: a response with no data and one error returns
that collection, which is non-empty with a defined first message. -/
theorem c10_errors_nonempty_invariant_witness :
    (([⟨"boom", []⟩] : List GError) ≠ [] ∧
      (errorsError [⟨"boom", []⟩]).isSome) ∧
    ∃ v2, clientDo 3 ⟨none, [⟨"boom", []⟩]⟩ .scalarT (.scalarV none) =
      (v2, some (.gqlErrors [⟨"boom", []⟩])) := by
  constructor
  · exact c10_errors_nonempty_invariant.1 3 ⟨none, [⟨"boom", []⟩]⟩ .scalarT (.scalarV none)
      (.scalarV none) [⟨"boom", []⟩] rfl
  · exact c10_errors_nonempty_invariant.2 3 ⟨none, [⟨"boom", []⟩]⟩ .scalarT (.scalarV none)
      (by decide) (Or.inl rfl)

/-! ## Claim C1: inline-fragment duplication -/

/-- Offering a member to the zipped fields acts pointwise: each
destination in the frame receives the value independently of its
siblings. -/
theorem mapM_zip_pointwise (g : GField GoType → GoValue → Except String GoValue) :
    ∀ (fs : List (GField GoType)) (vs ws : List GoValue),
      (fs.zip vs).mapM (fun p => g p.1 p.2) = .ok ws →
      ws.length = min fs.length vs.length ∧
      (∀ (i : Nat) (hif : i < fs.length) (hiv : i < vs.length),
        ∃ w, g (fs.get ⟨i, hif⟩) (vs.get ⟨i, hiv⟩) = .ok w ∧ ws[i]? = some w) := by
  intro fs
  induction fs with
  | nil =>
    intro vs ws h
    have h2 : Except.ok ([] : List GoValue) = .ok ws := h
    injection h2 with h3
    subst h3
    exact ⟨by simp, fun i hif _ => absurd hif (Nat.not_lt_zero i)⟩
  | cons f fs ih =>
    intro vs ws h
    cases vs with
    | nil =>
      have h2 : Except.ok ([] : List GoValue) = .ok ws := h
      injection h2 with h3
      subst h3
      exact ⟨by simp, fun i _ hiv => absurd hiv (Nat.not_lt_zero i)⟩
    | cons v vs =>
      rw [show (f :: fs).zip (v :: vs) = (f, v) :: fs.zip vs from rfl,
        List.mapM_cons] at h
      rcases hw : g f v with e | w
      · rw [hw] at h
        exact Except.noConfusion
          (show (Except.error e : Except String (List GoValue)) = .ok ws from h)
      · rw [hw] at h
        rcases hws : (fs.zip vs).mapM (fun p => g p.1 p.2) with e | ws'
        · rw [hws] at h
          exact Except.noConfusion
            (show (Except.error e : Except String (List GoValue)) = .ok ws from h)
        · rw [hws] at h
          have h2 : Except.ok (w :: ws') = .ok ws := h
          injection h2 with h3
          subst h3
          obtain ⟨hlen, hpt⟩ := ih vs ws' hws
          refine ⟨by simp [hlen, Nat.succ_min_succ], ?_⟩
          intro i hif hiv
          cases i with
          | zero => exact ⟨w, hw, by simp⟩
          | succ m =>
            obtain ⟨w2, hg, hidx⟩ :=
              hpt m (Nat.lt_of_succ_lt_succ hif) (Nat.lt_of_succ_lt_succ hiv)
            exact ⟨w2, hg, by simpa using hidx⟩

/-- The update a field receives for one member depends only on its
exportedness, its fragment status and its type: two fragment fields of
the same inner type receive identical updates. -/
theorem updateField_congr (n : Nat) (k : String) (jv : JSON) (f₁ f₂ : GField GoType)
    (v : GoValue) (h1 : isFragmentField f₁ = true) (h2 : isFragmentField f₂ = true)
    (ht : f₁.typ = f₂.typ) :
    bindCore n (.fld k jv f₁ v) = bindCore n (.fld k jv f₂ v) := by
  cases n with
  | zero => rfl
  | succ m =>
    simp only [bindCore, h1, h2, if_true]
    rw [ht]

/-- Folding the object members over the frame preserves the agreement
of two fragment fields of equal type that start from equal values. -/
theorem bindObj_preserves (n : Nat) (fs : List (GField GoType)) (i j : Nat)
    (hif : i < fs.length) (hjf : j < fs.length)
    (hfi : isFragmentField (fs.get ⟨i, hif⟩) = true)
    (hfj : isFragmentField (fs.get ⟨j, hjf⟩) = true)
    (hty : (fs.get ⟨i, hif⟩).typ = (fs.get ⟨j, hjf⟩).typ) :
    ∀ (kvs : List (String × JSON)) (vs ws : List GoValue),
      vs.length = fs.length → vs[i]? = vs[j]? →
      kvs.foldlM (fun acc kj =>
        if keyMatchableF n kj.1 fs then
          (fs.zip acc).mapM (fun p => bindCore n (.fld kj.1 kj.2 p.1 p.2))
        else .error (unplaceableMsg kj.1)) vs = .ok ws →
      ws.length = fs.length ∧ ws[i]? = ws[j]? := by
  intro kvs
  induction kvs with
  | nil =>
    intro vs ws hlen hij h
    have h2 : Except.ok vs = .ok ws := h
    injection h2 with h3
    subst h3
    exact ⟨hlen, hij⟩
  | cons kj rest ih =>
    intro vs ws hlen hij h
    have h' : ((if keyMatchableF n kj.1 fs then
        (fs.zip vs).mapM (fun p => bindCore n (.fld kj.1 kj.2 p.1 p.2))
      else .error (unplaceableMsg kj.1)) >>= fun b =>
        rest.foldlM (fun acc kj =>
          if keyMatchableF n kj.1 fs then
            (fs.zip acc).mapM (fun p => bindCore n (.fld kj.1 kj.2 p.1 p.2))
          else .error (unplaceableMsg kj.1)) b) = .ok ws := h
    by_cases hkm : keyMatchableF n kj.1 fs = true
    · rw [if_pos hkm] at h'
      rcases hstep : (fs.zip vs).mapM (fun p => bindCore n (.fld kj.1 kj.2 p.1 p.2))
        with e | vs1
      · rw [hstep] at h'
        exact Except.noConfusion
          (show (Except.error e : Except String (List GoValue)) = .ok ws from h')
      · rw [hstep] at h'
        have h'' : rest.foldlM (fun acc kj =>
            if keyMatchableF n kj.1 fs then
              (fs.zip acc).mapM (fun p => bindCore n (.fld kj.1 kj.2 p.1 p.2))
            else .error (unplaceableMsg kj.1)) vs1 = .ok ws := h'
        obtain ⟨hlen1, hpt⟩ := mapM_zip_pointwise
          (fun f v => bindCore n (.fld kj.1 kj.2 f v)) fs vs vs1 hstep
        have hiv : i < vs.length := hlen ▸ hif
        have hjv : j < vs.length := hlen ▸ hjf
        have hlen1' : vs1.length = fs.length := by
          rw [hlen1, hlen, Nat.min_self]
        obtain ⟨wi, hgi, hwi⟩ := hpt i hif hiv
        obtain ⟨wj, hgj, hwj⟩ := hpt j hjf hjv
        have hvv : vs.get ⟨i, hiv⟩ = vs.get ⟨j, hjv⟩ := by
          have e1 : vs[i]? = some (vs.get ⟨i, hiv⟩) := List.getElem?_eq_getElem hiv
          have e2 : vs[j]? = some (vs.get ⟨j, hjv⟩) := List.getElem?_eq_getElem hjv
          rw [e1, e2] at hij
          injection hij
        have hcong := updateField_congr n kj.1 kj.2 _ _ (vs.get ⟨i, hiv⟩) hfi hfj hty
        rw [hcong, hvv, hgj] at hgi
        injection hgi with hww
        have hij1 : vs1[i]? = vs1[j]? := by rw [hwi, hwj, hww]
        exact ih vs1 ws hlen1' hij1 h''
    · rw [if_neg hkm] at h'
      exact Except.noConfusion
        (show (Except.error (unplaceableMsg kj.1) : Except String (List GoValue)) = .ok ws
          from h')

/-- C1: a record destination with two sibling inline-fragment fields of
the same inner record type binds a JSON object so that both fields end
with the same value whenever they start with the same value: every key
common to both promoted subtrees is written into both destinations. -/
theorem c1_inline_fragment_duplication (n : Nat) (fs : List (GField GoType))
    (kvs : List (String × JSON)) (vs vs' : List GoValue) (i j : Nat)
    (hif : i < fs.length) (hjf : j < fs.length)
    (hfi : isFragmentField (fs.get ⟨i, hif⟩) = true)
    (hfj : isFragmentField (fs.get ⟨j, hjf⟩) = true)
    (hty : (fs.get ⟨i, hif⟩).typ = (fs.get ⟨j, hjf⟩).typ)
    (hlen : vs.length = fs.length) (hinit : vs[i]? = vs[j]?)
    (hok : bindF n (.obj kvs) (.structT fs) (.structV vs) = .ok (.structV vs')) :
    vs'[i]? = vs'[j]? ∧ vs'.length = fs.length := by
  cases n with
  | zero =>
    exact Except.noConfusion
      (show (Except.error "binder fuel exhausted" : Except String GoValue) =
        .ok (.structV vs') from hok)
  | succ m =>
    have h' : (kvs.foldlM (fun acc kj =>
        if keyMatchableF m kj.1 fs then
          (fs.zip acc).mapM (fun p => bindCore m (.fld kj.1 kj.2 p.1 p.2))
        else .error (unplaceableMsg kj.1)) vs >>= fun r =>
          Except.ok (GoValue.structV r)) = .ok (.structV vs') := hok
    rcases hfold : kvs.foldlM (fun acc kj =>
        if keyMatchableF m kj.1 fs then
          (fs.zip acc).mapM (fun p => bindCore m (.fld kj.1 kj.2 p.1 p.2))
        else .error (unplaceableMsg kj.1)) vs with e | r
    · rw [hfold] at h'
      exact Except.noConfusion
        (show (Except.error e : Except String GoValue) = .ok (.structV vs') from h')
    · rw [hfold] at h'
      have h2 : Except.ok (GoValue.structV r) = .ok (.structV vs') := h'
      injection h2 with h3
      injection h3 with h4
      subst h4
      obtain ⟨ha, hb⟩ := bindObj_preserves m fs i j hif hjf hfi hfj hty kvs vs r hlen hinit hfold
      exact ⟨hb, ha⟩

/-- C1 witness: the union test of the sources: the keys createdAt and
actor reach the ClosedEvent and ReopenedEvent subtrees together, and
the binder fills both with identical values. -/
theorem c1_inline_fragment_duplication_witness :
    bindF 10
      (.obj [("createdAt", .str "2017-06-29T04:12:01Z"),
        ("actor", .obj [("login", .str "shurcooL-test")])])
      (.structT [⟨"ClosedEvent", some "... on ClosedEvent", none, true,
          .structT [⟨"Actor", none, none, true,
              .structT [⟨"Login", none, none, true, .scalarT⟩]⟩,
            ⟨"CreatedAt", none, none, true, .scalarT⟩]⟩,
        ⟨"ReopenedEvent", some "... on ReopenedEvent", none, true,
          .structT [⟨"Actor", none, none, true,
              .structT [⟨"Login", none, none, true, .scalarT⟩]⟩,
            ⟨"CreatedAt", none, none, true, .scalarT⟩]⟩])
      (.structV [.structV [.structV [.scalarV none], .scalarV none],
        .structV [.structV [.scalarV none], .scalarV none]]) =
      .ok (.structV
        [.structV [.structV [.scalarV (some (.str "shurcooL-test"))],
          .scalarV (some (.str "2017-06-29T04:12:01Z"))],
         .structV [.structV [.scalarV (some (.str "shurcooL-test"))],
          .scalarV (some (.str "2017-06-29T04:12:01Z"))]]) ∧
    ([.structV [.structV [.scalarV (some (.str "shurcooL-test"))],
        .scalarV (some (.str "2017-06-29T04:12:01Z"))],
      .structV [.structV [.scalarV (some (.str "shurcooL-test"))],
        .scalarV (some (.str "2017-06-29T04:12:01Z"))]] : List GoValue)[0]? =
    ([.structV [.structV [.scalarV (some (.str "shurcooL-test"))],
        .scalarV (some (.str "2017-06-29T04:12:01Z"))],
      .structV [.structV [.scalarV (some (.str "shurcooL-test"))],
        .scalarV (some (.str "2017-06-29T04:12:01Z"))]] : List GoValue)[1]? := by
  constructor
  · rfl
  · exact (c1_inline_fragment_duplication 10
      [⟨"ClosedEvent", some "... on ClosedEvent", none, true,
          .structT [⟨"Actor", none, none, true,
              .structT [⟨"Login", none, none, true, .scalarT⟩]⟩,
            ⟨"CreatedAt", none, none, true, .scalarT⟩]⟩,
        ⟨"ReopenedEvent", some "... on ReopenedEvent", none, true,
          .structT [⟨"Actor", none, none, true,
              .structT [⟨"Login", none, none, true, .scalarT⟩]⟩,
            ⟨"CreatedAt", none, none, true, .scalarT⟩]⟩]
      [("createdAt", .str "2017-06-29T04:12:01Z"),
        ("actor", .obj [("login", .str "shurcooL-test")])]
      [.structV [.structV [.scalarV none], .scalarV none],
        .structV [.structV [.scalarV none], .scalarV none]]
      [.structV [.structV [.scalarV (some (.str "shurcooL-test"))],
          .scalarV (some (.str "2017-06-29T04:12:01Z"))],
        .structV [.structV [.scalarV (some (.str "shurcooL-test"))],
          .scalarV (some (.str "2017-06-29T04:12:01Z"))]]
      0 1 (by decide) (by decide) rfl rfl rfl rfl rfl rfl).1

end Graphql
